import Mathlib

/-!
Verification of the Gemini MCP adapter (`src/gemini-client.ts`, `src/index.ts`,
`src/config.ts`) against its natural-language specification.

The TypeScript adapter is shallowly embedded: upstream response payloads become
explicit Lean structures with `Option` fields (a missing JSON field is `none`),
JavaScript truthiness on strings is the `truthy` predicate (absent or empty is
falsy), `a || b` on strings is `jsOr`, and `a ?? b` is `Option.getD`.  Each
normalizer / classifier of the client is translated as a Lean function that
mirrors the source loop or `if` chain statement by statement.
-/

namespace GeminiMCP

/-- JavaScript truthiness of an optional string: `undefined` and `""` are falsy. -/
def truthy : Option String → Bool
  | none => false
  | some s => !(s == "")

/-- JavaScript `a || b` for an optional string `a`: falls back to `b` when `a` is
absent or empty. -/
def jsOr (a : Option String) (b : String) : String :=
  match a with
  | none => b
  | some s => if s == "" then b else s

/-- JavaScript template interpolation of a possibly-undefined string
(`${x}` prints `undefined` when `x` is absent). -/
def jsShow (a : Option String) : String :=
  match a with
  | none => "undefined"
  | some s => s

/-- Whether `pre` is a prefix of `l` (character lists). -/
def charsHasPre : List Char → List Char → Bool
  | [], _ => true
  | _ :: _, [] => false
  | a :: as, b :: bs => a == b && charsHasPre as bs

/-- Whether `needle` occurs as a contiguous substring of `hay` (character lists). -/
def charsHasSub (needle : List Char) : List Char → Bool
  | [] => needle.isEmpty
  | c :: t => charsHasPre needle (c :: t) || charsHasSub needle t

/-- JavaScript `hay.includes(needle)`: contiguous substring containment. -/
def strIncludes (hay needle : String) : Bool :=
  charsHasSub needle.data hay.data

/-- Concatenation of a list of strings in order (no separator). -/
def concatAll : List String → String
  | [] => ""
  | s :: l => s ++ concatAll l

/-- Newline-separated join of a list of strings, in order. -/
def nlJoin : List String → String
  | [] => ""
  | s :: l =>
    match l with
    | [] => s
    | _ :: _ => s ++ "\n" ++ nlJoin l

/- ### Upstream response data model (`@google/genai` payload shapes) -/

/-- `part.inlineData`: base64 payload and declared media type. -/
structure InlineData where
  data : Option String
  mimeType : Option String
  deriving DecidableEq, Repr

/-- `part.executableCode`. -/
structure ExecutableCode where
  code : Option String
  deriving DecidableEq, Repr

/-- `part.codeExecutionResult`. -/
structure CodeExecutionResult where
  output : Option String
  deriving DecidableEq, Repr

/-- One response fragment (`Part` of the content of a candidate). `thought` is the
"thought"-flag (absent ≡ false in JS truthiness). -/
structure Part where
  thought : Bool := false
  text : Option String := none
  inlineData : Option InlineData := none
  executableCode : Option ExecutableCode := none
  codeExecutionResult : Option CodeExecutionResult := none
  deriving DecidableEq, Repr

/-- Text payload of a fragment with the JS default `""`. -/
def partText (p : Part) : String := p.text.getD ""

/- ### Generic accumulating folds

The extraction loops of the client all accumulate string fields with `+=` guarded by
truthiness conditions.  We factor each field of each loop into one of these
folds, keyed by a selector `f : Part → Option String` that returns the piece a
fragment contributes to that field (or `none`). -/

/-- String accumulation: `acc += s` for each selected piece. -/
def accFold (f : Part → Option String) : List Part → String → String
  | [], acc => acc
  | p :: ps, acc =>
    match f p with
    | some s => accFold f ps (acc ++ s)
    | none => accFold f ps acc

/-- Optional-string accumulation: `acc = (acc || X) + s` with `X` the empty string literal, starting undefined. -/
def optFold (f : Part → Option String) : List Part → Option String → Option String
  | [], acc => acc
  | p :: ps, acc =>
    match f p with
    | some s => optFold f ps (some (jsOr acc "" ++ s))
    | none => optFold f ps acc

/-- Newline-joined accumulation: `acc += sep + s` where `sep` is a newline unless `acc` is still empty. -/
def joinFold (f : Part → Option String) : List Part → String → String
  | [], acc => acc
  | p :: ps, acc =>
    match f p with
    | some s => joinFold f ps (acc ++ (if acc == "" then "" else "\n") ++ s)
    | none => joinFold f ps acc

/-- String append is associative. -/
theorem strAppendAssoc (a b c : String) : a ++ b ++ c = a ++ (b ++ c) := by
  cases a with
  | mk la =>
    cases b with
    | mk lb =>
      cases c with
      | mk lc =>
        show String.mk (la ++ lb ++ lc) = String.mk (la ++ (lb ++ lc))
        rw [List.append_assoc]

theorem accFold_eq (f : Part → Option String) :
    ∀ (ps : List Part) (acc : String),
      accFold f ps acc = acc ++ concatAll (ps.filterMap f) := by
  intro ps
  induction ps with
  | nil => intro acc; simp [accFold, concatAll, List.filterMap]
  | cons p ps ih =>
    intro acc
    cases hf : f p with
    | none => simp [accFold, hf, List.filterMap_cons, ih]
    | some s =>
      simp [accFold, hf, List.filterMap_cons, ih, concatAll, strAppendAssoc]

theorem jsOr_some_empty (t : String) : jsOr (some t) "" = t := by
  simp only [jsOr]
  split
  · next h => exact (eq_of_beq h).symm
  · rfl

theorem strAppendNeEmptyRight (a b : String) (hb : ¬ b = "") : ¬ (a ++ b = "") := by
  intro h
  apply hb
  cases a with
  | mk la =>
    cases b with
    | mk lb =>
      have hd : la ++ lb = ([] : List Char) := congrArg String.data h
      have : lb = [] := (List.append_eq_nil.mp hd).2
      simp [this]

theorem optFold_eq (f : Part → Option String) :
    ∀ (ps : List Part) (acc : Option String),
      optFold f ps acc =
        match ps.filterMap f with
        | [] => acc
        | s :: l => some (jsOr acc "" ++ concatAll (s :: l)) := by
  intro ps
  induction ps with
  | nil => intro acc; simp [optFold]
  | cons p ps ih =>
    intro acc
    cases hf : f p with
    | none => simp only [optFold, hf, List.filterMap_cons]; exact ih acc
    | some s =>
      simp only [optFold, hf, List.filterMap_cons]
      rw [ih]
      cases hrest : ps.filterMap f with
      | nil => simp [concatAll, String.append_empty]
      | cons t l => simp [jsOr_some_empty, concatAll, strAppendAssoc]

theorem joinFold_eq (f : Part → Option String)
    (hf : ∀ p s, f p = some s → ¬ s = "") :
    ∀ (ps : List Part) (acc : String),
      joinFold f ps acc =
        match ps.filterMap f with
        | [] => acc
        | s :: l =>
          if acc = "" then nlJoin (s :: l) else acc ++ "\n" ++ nlJoin (s :: l) := by
  intro ps
  induction ps with
  | nil => intro acc; simp [joinFold]
  | cons p ps ih =>
    intro acc
    cases hf' : f p with
    | none => simp only [joinFold, hf', List.filterMap_cons]; exact ih acc
    | some s =>
      have hs : ¬ s = "" := hf p s hf'
      simp only [joinFold, hf', List.filterMap_cons]
      rw [ih]
      by_cases ha : acc = ""
      · subst ha
        have hacc : ("" : String) ++ (if ("" : String) == "" then "" else "\n") ++ s = s := by
          simp [String.empty_append]
        rw [hacc]
        cases hrest : ps.filterMap f with
        | nil => simp [nlJoin, hs]
        | cons t l => simp [nlJoin, hs]
      · have hbeq : (acc == "") = false := by
          simp [ha]
        have hacc : acc ++ (if acc == "" then "" else "\n") ++ s = acc ++ "\n" ++ s := by
          simp [hbeq]
        rw [hacc]
        have hne : ¬ (acc ++ "\n" ++ s = "") := strAppendNeEmptyRight _ _ hs
        cases hrest : ps.filterMap f with
        | nil => simp [nlJoin, ha]
        | cons t l =>
          simp only [nlJoin, hne, ha, if_false]
          simp only [strAppendAssoc]

/- ### Upstream response envelope -/

/-- `candidate.content`. -/
structure Content where
  parts : Option (List Part) := none
  deriving Repr

/-- `chunk.web` of a grounding chunk. -/
structure WebChunk where
  title : Option String := none
  uri : Option String := none
  deriving DecidableEq, Repr

/-- `chunk.maps` of a grounding chunk. -/
structure MapsChunk where
  title : Option String := none
  uri : Option String := none
  placeId : Option String := none
  text : Option String := none
  deriving DecidableEq, Repr

/-- One entry of `groundingMetadata.groundingChunks`. -/
structure GroundingChunk where
  web : Option WebChunk := none
  maps : Option MapsChunk := none
  deriving DecidableEq, Repr

/-- `candidate.groundingMetadata`. -/
structure GroundingMetadata where
  groundingChunks : Option (List GroundingChunk) := none
  webSearchQueries : Option (List String) := none
  deriving DecidableEq, Repr

/-- One entry of `urlContextMetadata.urlMetadata`. -/
structure UrlMetaEntry where
  retrievedUrl : Option String := none
  urlRetrievalStatus : Option String := none
  deriving DecidableEq, Repr

/-- `candidate.urlContextMetadata`. -/
structure UrlContextMetadata where
  urlMetadata : Option (List UrlMetaEntry) := none
  deriving DecidableEq, Repr

/-- One candidate of an upstream response. -/
structure Candidate where
  content : Option Content := none
  groundingMetadata : Option GroundingMetadata := none
  urlContextMetadata : Option UrlContextMetadata := none
  deriving Repr

/-- `response.usageMetadata`. -/
structure UsageMetadata where
  thoughtsTokenCount : Option Nat := none
  deriving DecidableEq, Repr

/-- An upstream generation response as observed by the extractors of the client.
`text` is the aggregated `response.text` accessor of the SDK. -/
structure Response where
  candidates : Option (List Candidate) := none
  text : Option String := none
  usageMetadata : Option UsageMetadata := none
  deriving Repr

/-- `response.candidates?.[0]?.content?.parts` (optional chaining). -/
def candParts (r : Response) : Option (List Part) :=
  ((r.candidates.bind fun cs => cs.head?).bind fun c => c.content).bind fun c => c.parts

/-- `response.candidates?.[0]`. -/
def firstCandidate (r : Response) : Option Candidate :=
  r.candidates.bind fun cs => cs.head?

/-- A response whose only candidate carries exactly the given parts list
(used to feed the extractors a concrete fragment list). -/
def mkPartsResponse (ps : List Part) : Response :=
  { candidates := some [{ content := some { parts := some ps } }] }

/- ### Normalized result shapes (`gemini-client.ts` interfaces) -/

/-- `ImageResult`. -/
structure ImageResult where
  data : String
  mimeType : String
  deriving DecidableEq, Repr

/-- `GenerateImageResponse`. -/
structure GenerateImageResponse where
  text : Option String := none
  thinking : Option String := none
  images : List ImageResult := []
  deriving DecidableEq, Repr

/-- One citation of `SearchWebResponse`. -/
structure Citation where
  title : String
  uri : String
  deriving DecidableEq, Repr

/-- `SearchWebResponse`. -/
structure SearchWebResponse where
  text : String
  citations : List Citation
  searchQueries : List String
  deriving DecidableEq, Repr

/-- `ThinkingResponse`. -/
structure ThinkingResponse where
  text : String
  thinking : String
  thinkingTokens : Option Nat := none
  deriving DecidableEq, Repr

/-- `CodeExecutionResponse`. -/
structure CodeExecutionResponse where
  text : String
  code : String
  output : String
  deriving DecidableEq, Repr

/-- One entry of `UrlContextResponse.urlMetadata`. -/
structure UrlMeta where
  url : String
  status : String
  deriving DecidableEq, Repr

/-- `UrlContextResponse`. -/
structure UrlContextResponse where
  text : String
  urlMetadata : List UrlMeta
  deriving DecidableEq, Repr

/-- One place of `MapsResponse`. -/
structure Place where
  title : String
  uri : String
  placeId : Option String := none
  text : Option String := none
  deriving DecidableEq, Repr

/-- `MapsResponse`. -/
structure MapsResponse where
  text : String
  places : List Place
  searchQueries : List String
  deriving DecidableEq, Repr

/- ### Extractors (`gemini-client.ts` private normalizers) -/

/-- Loop of `extractThinkingResponse` (lines 571-577): per fragment,
`if (part.thought && part.text) thinking += part.text; else if (part.text) text += part.text`. -/
def thinkingLoop : List Part → String → String → String × String
  | [], thinking, text => (thinking, text)
  | p :: ps, thinking, text =>
    if p.thought && truthy p.text then thinkingLoop ps (thinking ++ partText p) text
    else if truthy p.text then thinkingLoop ps thinking (text ++ partText p)
    else thinkingLoop ps thinking text

/-- `GeminiClient.extractThinkingResponse` (lines 566-582). -/
def extractThinkingResponse (r : Response) : ThinkingResponse :=
  let parts := (candParts r).getD []
  let acc := thinkingLoop parts "" ""
  { text := acc.2, thinking := acc.1,
    thinkingTokens := r.usageMetadata.bind fun u => u.thoughtsTokenCount }

/-- Loop of `extractImageResponse` (lines 522-535): the text/thinking split is an
`if / else if`, but the `inlineData` check is a separate `if`, so one fragment can
feed both a text field and the image list. -/
def imageLoop : List Part → GenerateImageResponse → GenerateImageResponse
  | [], acc => acc
  | p :: ps, acc =>
    let acc1 :=
      if p.thought && truthy p.text then
        { acc with thinking := some (jsOr acc.thinking "" ++ partText p) }
      else if truthy p.text then
        { acc with text := some (jsOr acc.text "" ++ partText p) }
      else acc
    let acc2 :=
      match p.inlineData with
      | some idata =>
        if truthy idata.data then
          { acc1 with images :=
              acc1.images ++ [⟨idata.data.getD "", jsOr idata.mimeType "image/png"⟩] }
        else acc1
      | none => acc1
    imageLoop ps acc2

/-- `GeminiClient.extractImageResponse` (lines 514-538): returns the empty result
when the parts chain is absent. -/
def extractImageResponse (r : Response) : GenerateImageResponse :=
  match candParts r with
  | none => { images := [] }
  | some parts => imageLoop parts { images := [] }

/-- `GeminiClient.extractSearchResponse` (lines 540-564). -/
def extractSearchResponse (r : Response) : SearchWebResponse :=
  let text := r.text.getD ""
  match (firstCandidate r).bind fun c => c.groundingMetadata with
  | none => { text := text, citations := [], searchQueries := [] }
  | some gm =>
    let citations :=
      match gm.groundingChunks with
      | none => []
      | some chunks =>
        chunks.filterMap fun ch =>
          ch.web.map fun w => (⟨jsOr w.title "Untitled", jsOr w.uri ""⟩ : Citation)
    { text := text, citations := citations,
      searchQueries := gm.webSearchQueries.getD [] }

/-- `part.executableCode?.code`. -/
def ecCode (p : Part) : Option String :=
  p.executableCode.bind fun ec => ec.code

/-- `part.codeExecutionResult?.output`. -/
def ecOutput (p : Part) : Option String :=
  p.codeExecutionResult.bind fun cr => cr.output

/-- Loop of `extractCodeExecutionResponse` (lines 590-598): an exclusive
`if / else if / else if` chain bucketing each fragment into code, output or text. -/
def codeLoop : List Part → String → String → String → String × String × String
  | [], text, code, output => (text, code, output)
  | p :: ps, text, code, output =>
    if truthy (ecCode p) then
      codeLoop ps text (code ++ (if code == "" then "" else "\n") ++ (ecCode p).getD "") output
    else if truthy (ecOutput p) then
      codeLoop ps text code (output ++ (if output == "" then "" else "\n") ++ (ecOutput p).getD "")
    else if truthy p.text then
      codeLoop ps (text ++ partText p) code output
    else codeLoop ps text code output

/-- `GeminiClient.extractCodeExecutionResponse` (lines 584-601). -/
def extractCodeExecutionResponse (r : Response) : CodeExecutionResponse :=
  let parts := (candParts r).getD []
  let acc := codeLoop parts "" "" ""
  { text := acc.1, code := acc.2.1, output := acc.2.2 }

/-- `GeminiClient.extractUrlContextResponse` (lines 603-618). -/
def extractUrlContextResponse (r : Response) : UrlContextResponse :=
  let text := r.text.getD ""
  match ((firstCandidate r).bind fun c => c.urlContextMetadata).bind fun u => u.urlMetadata with
  | none => { text := text, urlMetadata := [] }
  | some metas =>
    { text := text,
      urlMetadata := metas.map fun m =>
        ⟨jsOr m.retrievedUrl "", jsOr m.urlRetrievalStatus "UNKNOWN"⟩ }

/-- `GeminiClient.extractMapsResponse` (lines 620-646). -/
def extractMapsResponse (r : Response) : MapsResponse :=
  let text := r.text.getD ""
  match (firstCandidate r).bind fun c => c.groundingMetadata with
  | none => { text := text, places := [], searchQueries := [] }
  | some gm =>
    let places :=
      match gm.groundingChunks with
      | none => []
      | some chunks =>
        chunks.filterMap fun ch =>
          ch.maps.map fun m =>
            (⟨jsOr m.title "", jsOr m.uri "", m.placeId, m.text⟩ : Place)
    { text := text, places := places,
      searchQueries := gm.webSearchQueries.getD [] }

/- ### Bucket selectors and spec-side piece lists

The selectors mirror the guard structure of the extraction loops: they return
the string a fragment contributes to one output field, or `none`.  The `…Pieces`
functions are the specification-side view: a filter over the fragment list in
emission order followed by payload projection. -/

/-- Piece a fragment contributes to the thinking field. -/
def thinkSel (p : Part) : Option String :=
  if p.thought && truthy p.text then some (partText p) else none

/-- Piece a fragment contributes to the answer-text field (thinking split). -/
def answerSel (p : Part) : Option String :=
  if p.thought && truthy p.text then none
  else if truthy p.text then some (partText p) else none

/-- Piece a fragment contributes to the generated code field. -/
def codeSel (p : Part) : Option String :=
  if truthy (ecCode p) then some ((ecCode p).getD "") else none

/-- Piece a fragment contributes to the execution-output field. -/
def outputSel (p : Part) : Option String :=
  if truthy (ecCode p) then none
  else if truthy (ecOutput p) then some ((ecOutput p).getD "") else none

/-- Piece a fragment contributes to the answer-text field (code-execution split). -/
def codeTextSel (p : Part) : Option String :=
  if truthy (ecCode p) then none
  else if truthy (ecOutput p) then none
  else if truthy p.text then some (partText p) else none

/-- Image item a fragment contributes to the generated-media list. -/
def imgSel (p : Part) : Option ImageResult :=
  match p.inlineData with
  | some idata =>
    if truthy idata.data then some ⟨idata.data.getD "", jsOr idata.mimeType "image/png"⟩
    else none
  | none => none

/-- Spec view: texts of the thought-flagged fragments carrying text, in order. -/
def thoughtPieces (ps : List Part) : List String :=
  (ps.filter fun p => p.thought && truthy p.text).map partText

/-- Spec view: texts of the fragments not flagged thought, in order. -/
def answerPieces (ps : List Part) : List String :=
  (ps.filter fun p => !p.thought && truthy p.text).map partText

/-- Spec view: code payloads of code-carrying fragments, in order. -/
def codePieces (ps : List Part) : List String :=
  (ps.filter fun p => truthy (ecCode p)).map fun p => (ecCode p).getD ""

/-- Spec view: execution outputs of non-code fragments carrying output, in order. -/
def outputPieces (ps : List Part) : List String :=
  (ps.filter fun p => !truthy (ecCode p) && truthy (ecOutput p)).map fun p =>
    (ecOutput p).getD ""

/-- Spec view: texts of fragments carrying neither code nor output, in order. -/
def codeTextPieces (ps : List Part) : List String :=
  (ps.filter fun p => !truthy (ecCode p) && !truthy (ecOutput p) && truthy p.text).map partText

/-- Spec view: media items of inline-data fragments, in order. -/
def imagePieces (ps : List Part) : List ImageResult :=
  (ps.filter fun p => truthy (p.inlineData.bind fun i => i.data)).map fun p =>
    ⟨(p.inlineData.bind fun i => i.data).getD "",
     jsOr (p.inlineData.bind fun i => i.mimeType) "image/png"⟩

/-- `none` for no pieces, otherwise the concatenation (the or-else-empty
accumulation pattern starting from `undefined`). -/
def optConcat (l : List String) : Option String :=
  match l with
  | [] => none
  | _ :: _ => some (concatAll l)

theorem filterMap_thinkSel (ps : List Part) :
    ps.filterMap thinkSel = thoughtPieces ps := by
  induction ps with
  | nil => rfl
  | cons p ps ih =>
    cases ht : p.thought <;> cases htx : truthy p.text <;>
      simp_all [List.filterMap_cons, thoughtPieces, List.filter_cons, thinkSel, ht, htx]

theorem filterMap_answerSel (ps : List Part) :
    ps.filterMap answerSel = answerPieces ps := by
  induction ps with
  | nil => rfl
  | cons p ps ih =>
    cases ht : p.thought <;> cases htx : truthy p.text <;>
      simp_all [List.filterMap_cons, answerPieces, List.filter_cons, answerSel, ht, htx]

theorem filterMap_codeSel (ps : List Part) :
    ps.filterMap codeSel = codePieces ps := by
  induction ps with
  | nil => rfl
  | cons p ps ih =>
    cases h : truthy (ecCode p) <;>
      simp_all [List.filterMap_cons, codePieces, List.filter_cons, codeSel, h]

theorem filterMap_outputSel (ps : List Part) :
    ps.filterMap outputSel = outputPieces ps := by
  induction ps with
  | nil => rfl
  | cons p ps ih =>
    cases h1 : truthy (ecCode p) <;> cases h2 : truthy (ecOutput p) <;>
      simp_all [List.filterMap_cons, outputPieces, List.filter_cons, outputSel, h1, h2]

theorem filterMap_codeTextSel (ps : List Part) :
    ps.filterMap codeTextSel = codeTextPieces ps := by
  induction ps with
  | nil => rfl
  | cons p ps ih =>
    cases h1 : truthy (ecCode p) <;> cases h2 : truthy (ecOutput p) <;>
      cases h3 : truthy p.text <;>
      simp_all [List.filterMap_cons, codeTextPieces, List.filter_cons, codeTextSel,
        h1, h2, h3]

theorem filterMap_imgSel (ps : List Part) :
    ps.filterMap imgSel = imagePieces ps := by
  induction ps with
  | nil => rfl
  | cons p ps ih =>
    cases hi : p.inlineData with
    | none =>
      simp_all [List.filterMap_cons, imagePieces, List.filter_cons, imgSel, hi, truthy]
    | some idata =>
      cases h : truthy idata.data <;>
        simp_all [List.filterMap_cons, imagePieces, List.filter_cons, imgSel, hi, h]

/- ### Decomposition of the loops into the generic folds -/

theorem thinkingLoop_eq (ps : List Part) :
    ∀ (th tx : String),
      thinkingLoop ps th tx = (accFold thinkSel ps th, accFold answerSel ps tx) := by
  induction ps with
  | nil => intro th tx; rfl
  | cons p ps ih =>
    intro th tx
    cases ht : p.thought <;> cases htx : truthy p.text <;>
      simp [thinkingLoop, accFold, thinkSel, answerSel, ht, htx, ih]

theorem codeLoop_eq (ps : List Part) :
    ∀ (tx c o : String),
      codeLoop ps tx c o =
        (accFold codeTextSel ps tx, joinFold codeSel ps c, joinFold outputSel ps o) := by
  induction ps with
  | nil => intro tx c o; rfl
  | cons p ps ih =>
    intro tx c o
    cases h1 : truthy (ecCode p) <;> cases h2 : truthy (ecOutput p) <;>
      cases h3 : truthy p.text <;>
      simp [codeLoop, accFold, joinFold, codeSel, outputSel, codeTextSel, h1, h2, h3, ih]

theorem imageLoop_eq (ps : List Part) :
    ∀ acc : GenerateImageResponse,
      imageLoop ps acc =
        { text := optFold answerSel ps acc.text,
          thinking := optFold thinkSel ps acc.thinking,
          images := acc.images ++ ps.filterMap imgSel } := by
  induction ps with
  | nil => intro acc; simp [imageLoop, optFold]
  | cons p ps ih =>
    intro acc
    cases hi : p.inlineData with
    | none =>
      cases ht : p.thought <;> cases htx : truthy p.text <;>
        simp [imageLoop, optFold, thinkSel, answerSel, imgSel, ht, htx, hi, ih,
          List.filterMap_cons]
    | some idata =>
      cases hd : truthy idata.data <;>
        cases ht : p.thought <;> cases htx : truthy p.text <;>
          simp [imageLoop, optFold, thinkSel, answerSel, imgSel, ht, htx, hi, hd, ih,
            List.filterMap_cons]

theorem truthy_getD_ne (o : Option String) (h : truthy o = true) : ¬ (o.getD "" = "") := by
  cases o with
  | none => simp [truthy] at h
  | some s =>
    simp only [truthy, Bool.not_eq_true'] at h
    simpa using h

theorem codeSel_ne_empty : ∀ (p : Part) (s : String), codeSel p = some s → ¬ s = "" := by
  intro p s h
  unfold codeSel at h
  split at h
  · rename_i hc
    injection h with h2
    subst h2
    exact truthy_getD_ne _ hc
  · exact Option.noConfusion h

theorem outputSel_ne_empty : ∀ (p : Part) (s : String), outputSel p = some s → ¬ s = "" := by
  intro p s h
  unfold outputSel at h
  split at h
  · exact Option.noConfusion h
  · split at h
    · rename_i ho
      injection h with h2
      subst h2
      exact truthy_getD_ne _ ho
    · exact Option.noConfusion h

theorem accFold_empty (f : Part → Option String) (ps : List Part) :
    accFold f ps "" = concatAll (ps.filterMap f) := by
  rw [accFold_eq]
  exact String.empty_append _

theorem joinFold_empty (f : Part → Option String)
    (hf : ∀ p s, f p = some s → ¬ s = "") (ps : List Part) :
    joinFold f ps "" = nlJoin (ps.filterMap f) := by
  rw [joinFold_eq f hf]
  cases ps.filterMap f <;> simp [nlJoin]

theorem optFold_none (f : Part → Option String) (ps : List Part) :
    optFold f ps none = optConcat (ps.filterMap f) := by
  rw [optFold_eq]
  cases ps.filterMap f <;> simp [optConcat, jsOr, String.empty_append]

/- ### Extractor characterizations -/

/-- The thinking normalizer is exactly: answer = concatenation of non-thought
texts, thinking = concatenation of thought-flagged texts, in emission order. -/
theorem extractThinkingResponse_char (r : Response) :
    extractThinkingResponse r =
      { text := concatAll (answerPieces ((candParts r).getD [])),
        thinking := concatAll (thoughtPieces ((candParts r).getD [])),
        thinkingTokens := r.usageMetadata.bind fun u => u.thoughtsTokenCount } := by
  simp only [extractThinkingResponse]
  rw [thinkingLoop_eq]
  simp only [accFold_empty, filterMap_thinkSel, filterMap_answerSel]

/-- The image normalizer is exactly: the two text buckets as in the thinking
normalizer (as optional strings), plus the inline-data media list in order. -/
theorem extractImageResponse_char (r : Response) :
    extractImageResponse r =
      { text := optConcat (answerPieces ((candParts r).getD [])),
        thinking := optConcat (thoughtPieces ((candParts r).getD [])),
        images := imagePieces ((candParts r).getD []) } := by
  unfold extractImageResponse
  cases hc : candParts r with
  | none =>
    simp [optConcat, answerPieces, thoughtPieces, imagePieces, List.filter]
  | some ps =>
    show imageLoop ps { text := none, thinking := none, images := [] } = _
    rw [imageLoop_eq]
    simp [optFold_none, filterMap_imgSel, filterMap_thinkSel, filterMap_answerSel]

/-- The code-execution normalizer is exactly: three disjoint buckets (code wins
over output wins over text), newline-joined / concatenated in emission order. -/
theorem extractCodeExecutionResponse_char (r : Response) :
    extractCodeExecutionResponse r =
      { text := concatAll (codeTextPieces ((candParts r).getD [])),
        code := nlJoin (codePieces ((candParts r).getD [])),
        output := nlJoin (outputPieces ((candParts r).getD [])) } := by
  simp only [extractCodeExecutionResponse]
  rw [codeLoop_eq]
  simp only [accFold_empty, joinFold_empty codeSel codeSel_ne_empty,
    joinFold_empty outputSel outputSel_ne_empty, filterMap_codeSel,
    filterMap_outputSel, filterMap_codeTextSel]

/-- A fragment that is thought-flagged but carries no (or empty) text is
selected into no text bucket. -/
theorem pieces_drop (p : Part) (hth : p.thought = true) (htx : truthy p.text = false)
    (l1 l2 : List Part) :
    thoughtPieces (l1 ++ p :: l2) = thoughtPieces (l1 ++ l2)
      ∧ answerPieces (l1 ++ p :: l2) = answerPieces (l1 ++ l2) := by
  constructor <;>
    simp [thoughtPieces, answerPieces, List.filter_append, List.filter_cons, hth, htx]

/- ### Error classification (`GeminiClient.handleError`, lines 687-717) -/

/-- The caught failure signal: JS error objects are inspected for `.message`,
`.status` and `.code`; `asString` is the `${error}` rendering used by the
`error.message || error` fallback. -/
structure ErrVal where
  message : Option String := none
  status : Option Nat := none
  code : Option String := none
  asString : String := ""
  deriving DecidableEq, Repr

/-- `error.message?.includes(s)` (optional chaining: absent message never matches). -/
def msgIncludes (e : ErrVal) (s : String) : Bool :=
  match e.message with
  | some m => strIncludes m s
  | none => false

/-- `new Error(m)` as later observed by `handleError` after being re-thrown:
only `.message` is set; `${error}` renders as the usual `Error: m`. -/
def thrownError (m : String) : ErrVal :=
  { message := some m, asString := "Error: " ++ m }

/-- `GeminiClient.handleError` (lines 687-717): the message of the returned error,
translated branch by branch. -/
def handleError (e : ErrVal) : String :=
  if e.message == some "Request timeout" then
    "Gemini API request timed out. Please try again."
  else if e.status == some 401 || e.status == some 403 then
    "Invalid Gemini API key. Please check your GEMINI_API_KEY environment variable."
  else if e.status == some 429 then
    "Gemini API rate limit exceeded. Please wait a moment and try again."
  else if msgIncludes e "SAFETY" || msgIncludes e "blocked" then
    "Content blocked by Gemini\x27s safety filters. Try rephrasing your request."
  else if e.code == some "ENOTFOUND" || e.code == some "ECONNREFUSED" || msgIncludes e "fetch" then
    "Failed to connect to Gemini API: " ++ jsShow e.message
  else
    "Gemini API error: " ++ jsOr e.message e.asString

/-- The failure taxonomy of the specification. -/
inductive FailureCategory where
  | Timeout
  | AuthRejected
  | RateLimited
  | ContentFiltered
  | NetworkUnreachable
  | Unclassified
  deriving DecidableEq, Repr

/-- Matching rule of each non-default category, read off the specification:
timeout race fired; 401/403; 429; safety/blocking terms; DNS / connection-refused
code or a message mentioning the transport by name. -/
def rulePred (c : FailureCategory) (e : ErrVal) : Bool :=
  match c with
  | .Timeout => e.message == some "Request timeout"
  | .AuthRejected => e.status == some 401 || e.status == some 403
  | .RateLimited => e.status == some 429
  | .ContentFiltered => msgIncludes e "SAFETY" || msgIncludes e "blocked"
  | .NetworkUnreachable =>
    e.code == some "ENOTFOUND" || e.code == some "ECONNREFUSED" || msgIncludes e "fetch"
  | .Unclassified => true

/-- The priority order of the classification rules in the specification. -/
def classificationOrder : List FailureCategory :=
  [.Timeout, .AuthRejected, .RateLimited, .ContentFiltered, .NetworkUnreachable]

/-- Specification-side classifier: the first category of `classificationOrder`
whose rule matches wins; `Unclassified` is the default. -/
def classifyFirstMatch (e : ErrVal) : FailureCategory :=
  match classificationOrder.find? (fun c => rulePred c e) with
  | some c => c
  | none => .Unclassified

/-- The canned human-readable message of each category; `Unclassified`
interpolates the raw upstream message into a generic template. -/
def categoryMessage (c : FailureCategory) (e : ErrVal) : String :=
  match c with
  | .Timeout => "Gemini API request timed out. Please try again."
  | .AuthRejected =>
    "Invalid Gemini API key. Please check your GEMINI_API_KEY environment variable."
  | .RateLimited => "Gemini API rate limit exceeded. Please wait a moment and try again."
  | .ContentFiltered =>
    "Content blocked by Gemini\x27s safety filters. Try rephrasing your request."
  | .NetworkUnreachable => "Failed to connect to Gemini API: " ++ jsShow e.message
  | .Unclassified => "Gemini API error: " ++ jsOr e.message e.asString

/- ### Thinking control selection (`generateWithThinking`, lines 195-205; `config.ts`) -/

/-- `GEMINI_3_MODELS` of `config.ts` (lines 21-24). -/
def GEMINI_3_MODELS : List String :=
  ["gemini-3-flash-preview", "gemini-3-pro-preview"]

/-- `GEMINI_3_MODELS.some(m => model.includes(m))` (line 195). -/
def isGemini3 (model : String) : Bool :=
  GEMINI_3_MODELS.any fun m => strIncludes model m

/-- The `thinkingConfig` bag sent upstream. -/
structure ThinkingConfig where
  includeThoughts : Bool
  thinkingLevel : Option String := none
  thinkingBudget : Option Nat := none
  deriving DecidableEq, Repr

/-- Construction of `thinkingConfig` in `generateWithThinking` (lines 197-205):
Gemini-3 family models get `thinkingLevel` equal to the upper-cased caller level, or-else the default HIGH,
all other models get `thinkingBudget = options?.thinkingBudget ?? 8192`. -/
def mkThinkingConfig (model : String) (thinkingBudget : Option Nat)
    (thinkingLevel : Option String) : ThinkingConfig :=
  if isGemini3 model then
    { includeThoughts := true, thinkingLevel := some (jsOr thinkingLevel "HIGH").toUpper }
  else
    { includeThoughts := true, thinkingBudget := some (thinkingBudget.getD 8192) }

/- ### Maps tool input validation (`index.ts` google_maps handler, lines 686-700;
`GeminiClient.searchMaps`, lines 371-412) -/

/-- Arguments of the `google_maps` tool call. -/
structure MapsToolInput where
  query : String
  latitude : Option ℚ := none
  longitude : Option ℚ := none
  deriving DecidableEq, Repr

/-- The zod schema of the handler: `query: z.string().min(1)`,
`latitude: z.number().min(-90).max(90).optional()`,
`longitude: z.number().min(-180).max(180).optional()` — each coordinate is
validated independently and each is optional on its own. -/
def mapsInputAccepted (i : MapsToolInput) : Bool :=
  decide (1 ≤ i.query.length)
    && (match i.latitude with
        | none => true
        | some a => decide (-90 ≤ a) && decide (a ≤ 90))
    && (match i.longitude with
        | none => true
        | some b => decide (-180 ≤ b) && decide (b ≤ 180))

/-- The request configuration `searchMaps` sends upstream: the `googleMaps` tool
plus, only when BOTH coordinates are defined (lines 386-395), a
`toolConfig.retrievalConfig.latLng` directive. -/
structure MapsRequestConfig where
  usesGoogleMapsTool : Bool
  latLng : Option (ℚ × ℚ) := none
  deriving DecidableEq, Repr

/-- Config construction of `GeminiClient.searchMaps` (lines 381-395). -/
def searchMapsConfig (latitude longitude : Option ℚ) : MapsRequestConfig :=
  { usesGoogleMapsTool := true,
    latLng :=
      match latitude, longitude with
      | some a, some b => some (a, b)
      | _, _ => none }

/-- The `google_maps` tool handler: parse the input against the zod schema
(`none` = rejected with a validation failure, no network call), then call
`searchMaps`, whose outbound request carries the returned configuration. -/
def googleMapsHandler (i : MapsToolInput) : Option MapsRequestConfig :=
  if mapsInputAccepted i then some (searchMapsConfig i.latitude i.longitude)
  else none

/- ### File upload + query (`GeminiClient.uploadAndQuery`, lines 310-369) -/

/-- `maxWait` (line 329). -/
def maxWait : Nat := 60000

/-- `pollInterval` (line 330). -/
def pollInterval : Nat := 2000

/-- The poll loop (lines 333-337): while the state is the literal PROCESSING and
`waited < maxWait`, sleep one interval and re-fetch the state.  `fuel` is the
number of remaining permitted polls (`(maxWait - waited) / pollInterval`);
`getState n` is the state returned by the `n`-th `files.get` call.  Returns the
final observed state and the number of polls performed. -/
def pollLoop (getState : Nat → String) : Nat → String → Nat → String × Nat
  | 0, st, n => (st, n)
  | fuel + 1, st, n =>
    if st == "PROCESSING" then pollLoop getState fuel (getState n) (n + 1)
    else (st, n)

/-- Environment of one `uploadAndQuery` run: what the upload returned, the
status sequence the polls would observe, and the text of the final generation
response. -/
structure UploadEnv where
  uploadName : Option String
  uploadState : String
  pollState : Nat → String
  queryResponseText : Option String := none

/-- Result of `uploadAndQuery`: a thrown (classified) error message, or the
`FileUploadResponse` fields `(text, fileName)`. -/
inductive UploadResult where
  | fail (message : String)
  | ok (text fileName : String)
  deriving DecidableEq, Repr

/-- Observable outcome of `uploadAndQuery`: the result, the number of status
polls, the simulated waiting time, and whether the final generation call was
ever issued. -/
structure UploadOutcome where
  result : UploadResult
  polls : Nat
  waitedMs : Nat
  queriedUpstream : Bool
  deriving DecidableEq, Repr

/-- `GeminiClient.uploadAndQuery` (lines 310-369): fail when the upload returns
no (or an empty) name; poll while PROCESSING up to `maxWait`; fail on
FAILED; fail when the terminal state is still not ACTIVE; otherwise
issue the generation call.  Thrown errors pass through `handleError`. -/
def uploadAndQuery (env : UploadEnv) : UploadOutcome :=
  if !truthy env.uploadName then
    { result := .fail (handleError (thrownError "File upload failed: no file name returned")),
      polls := 0, waitedMs := 0, queriedUpstream := false }
  else
    let fin := pollLoop env.pollState (maxWait / pollInterval) env.uploadState 0
    if fin.1 == "FAILED" then
      { result := .fail (handleError (thrownError "File processing failed")),
        polls := fin.2, waitedMs := fin.2 * pollInterval, queriedUpstream := false }
    else if !(fin.1 == "ACTIVE") then
      { result := .fail (handleError (thrownError "File processing timed out")),
        polls := fin.2, waitedMs := fin.2 * pollInterval, queriedUpstream := false }
    else
      { result := .ok (env.queryResponseText.getD "") (env.uploadName.getD ""),
        polls := fin.2, waitedMs := fin.2 * pollInterval, queriedUpstream := true }

/- ### Outbound-call structure of each adapter method

Each adapter method issues a fixed sequence of outbound network operations;
an operation is either wrapped in `Promise.race` with a `setTimeout` deadline
(`deadlineMs = some d`) or issued bare (`deadlineMs = none`).  The lists below
record, method by method, exactly the calls the source makes and the deadline
each is raced against (`t` is the configured base timeout). -/

/-- Kinds of outbound network operations the client performs. -/
inductive OpKind where
  | generateContent
  | generateImages
  | fileUpload
  | fileGet
  deriving DecidableEq, Repr

/-- One outbound operation with its race deadline, if any. -/
structure Outbound where
  kind : OpKind
  deadlineMs : Option Nat
  deriving DecidableEq, Repr

/-- `generate` (lines 70-79): one raced `generateContent`, deadline `t`. -/
def generateOps (t : Nat) : List Outbound := [⟨.generateContent, some t⟩]

/-- `editImage` (lines 124-144): one raced `generateContent`, deadline `3t`. -/
def editImageOps (t : Nat) : List Outbound := [⟨.generateContent, some (3 * t)⟩]

/-- `searchWeb` (lines 165-177): one raced `generateContent`, deadline `3t`. -/
def searchWebOps (t : Nat) : List Outbound := [⟨.generateContent, some (3 * t)⟩]

/-- `generateWithThinking` (lines 207-219): one raced call, deadline `5t`. -/
def generateWithThinkingOps (t : Nat) : List Outbound := [⟨.generateContent, some (5 * t)⟩]

/-- `executeCode` (lines 233-245): one raced call, deadline `3t`. -/
def executeCodeOps (t : Nat) : List Outbound := [⟨.generateContent, some (3 * t)⟩]

/-- `fetchUrl` (lines 262-274): one raced call, deadline `3t`. -/
def fetchUrlOps (t : Nat) : List Outbound := [⟨.generateContent, some (3 * t)⟩]

/-- `analyzeImage` (lines 294-302): one raced call, deadline `2t`. -/
def analyzeImageOps (t : Nat) : List Outbound := [⟨.generateContent, some (2 * t)⟩]

/-- `searchMaps` (lines 397-406): one raced call, deadline `3t`. -/
def searchMapsOps (t : Nat) : List Outbound := [⟨.generateContent, some (3 * t)⟩]

/-- `generateWithGemini` (lines 458-464): one raced call, deadline `5t` for the
pro model, otherwise `3t`. -/
def generateWithGeminiOps (t : Nat) (isProModel : Bool) : List Outbound :=
  [⟨.generateContent, some ((if isProModel then 5 else 3) * t)⟩]

/-- `generateWithImagen` (lines 481-494): one raced `generateImages`, deadline `3t`. -/
def generateWithImagenOps (t : Nat) : List Outbound := [⟨.generateImages, some (3 * t)⟩]

/-- `uploadAndQuery` (lines 310-360): a bare `files.upload` (lines 316-321, no
race), `polls` bare `files.get` calls (line 336, no race), then one raced
`generateContent` (lines 352-360, deadline `3t`). -/
def uploadAndQueryOps (t polls : Nat) : List Outbound :=
  ⟨.fileUpload, none⟩ :: List.replicate polls ⟨.fileGet, none⟩
    ++ [⟨.generateContent, some (3 * t)⟩]

/-- Whether every operation of the list is raced against a deadline. -/
def allRaced (ops : List Outbound) : Bool :=
  ops.all fun o => o.deadlineMs.isSome

/- ### Image request contents (`generateWithGemini`, lines 429-438) -/

/-- A caller-supplied reference image (base64 payload + declared type). -/
structure RefImage where
  data : String
  mimeType : String
  deriving DecidableEq, Repr

/-- One part of the contents of an outbound request. -/
inductive GPart where
  | text (s : String)
  | inlineImage (data mimeType : String)
  deriving DecidableEq, Repr

/-- `contents` is either a plain prompt string or an ordered part list. -/
inductive GContents where
  | plain (s : String)
  | parts (l : List GPart)
  deriving DecidableEq, Repr

/-- `options?.referenceImages?.length` truthiness (line 430). -/
def refsTruthy : Option (List RefImage) → Bool
  | none => false
  | some l => !(l.length == 0)

/-- Contents construction of `generateWithGemini` (lines 429-438): when reference
images are supplied, the part list starts with the text prompt and the inline
reference-image parts are pushed after it, in order. -/
def buildGeminiContents (prompt : String) (referenceImages : Option (List RefImage)) :
    GContents :=
  if refsTruthy referenceImages then
    GContents.parts
      (GPart.text prompt ::
        (referenceImages.getD []).map fun ref => GPart.inlineImage ref.data ref.mimeType)
  else GContents.plain prompt

/-- `candParts` of a single-candidate parts response is exactly the parts list. -/
theorem candParts_mk (ps : List Part) : candParts (mkPartsResponse ps) = some ps := rfl

/- ### Claim theorems -/

/-- Claim C1: every failed call yields exactly one failure category, determined
by first match over the priority order Timeout, AuthRejected (401/403),
RateLimited (429), ContentFiltered (safety/blocking terms), NetworkUnreachable
(ENOTFOUND/ECONNREFUSED or a message mentioning fetch), with Unclassified as the
default carrying the raw message in a generic template: `handleError` produces
exactly the message of the category picked by the first-match classifier. -/
theorem claim_error_classification_priority (e : ErrVal) :
    handleError e = categoryMessage (classifyFirstMatch e) e := by
  cases h1 : (e.message == some "Request timeout") <;>
    cases h2 : (e.status == some 401 || e.status == some 403) <;>
      cases h3 : (e.status == some 429) <;>
        cases h4 : (msgIncludes e "SAFETY" || msgIncludes e "blocked") <;>
          cases h5 : (e.code == some "ENOTFOUND" || e.code == some "ECONNREFUSED"
              || msgIncludes e "fetch") <;>
            simp [handleError, classifyFirstMatch, classificationOrder, List.find?,
              rulePred, categoryMessage, h1, h2, h3, h4, h5]

/-- Claim C2: in reasoning-trace normalization, thought-flagged fragments
accumulate only into the thinking field and unflagged fragments only into the
answer field, each concatenated in the original emission order, for every
upstream fragment list however interleaved. -/
theorem claim_thinking_fragment_buckets (r : Response) :
    (extractThinkingResponse r).thinking
        = concatAll (thoughtPieces ((candParts r).getD []))
      ∧ (extractThinkingResponse r).text
        = concatAll (answerPieces ((candParts r).getD [])) := by
  rw [extractThinkingResponse_char]
  exact ⟨rfl, rfl⟩

/-- Claim C3 (counterexample): in the image normalizer a single fragment
carrying both text and inline media data populates the answer-text field AND the
generated-media list, so a fragment is not always classified into at most one
bucket. -/
theorem claim_single_bucket_counterexample :
    ∃ p : Part,
      (extractImageResponse (mkPartsResponse [p])).text ≠ none
        ∧ (extractImageResponse (mkPartsResponse [p])).images ≠ [] := by
  refine ⟨{ thought := false, text := some "hi",
            inlineData := some { data := some "IMG", mimeType := some "image/png" } },
    ?_, ?_⟩ <;> decide

/-- Claim C3 (amended): within the text buckets each fragment feeds at most one
field (thought vs answer), the code-execution normalizer buckets each fragment
exclusively into code, output or text (first match), and each bucket preserves
emission order; but in the image normalizer the media list is filled
independently of the text split, so one fragment may feed a text field and the
media list. -/
theorem claim_single_bucket_amended (ps : List Part) :
    extractImageResponse (mkPartsResponse ps)
        = { text := optConcat (answerPieces ps),
            thinking := optConcat (thoughtPieces ps),
            images := imagePieces ps }
      ∧ extractCodeExecutionResponse (mkPartsResponse ps)
        = { text := concatAll (codeTextPieces ps),
            code := nlJoin (codePieces ps),
            output := nlJoin (outputPieces ps) }
      ∧ extractThinkingResponse (mkPartsResponse ps)
        = { text := concatAll (answerPieces ps),
            thinking := concatAll (thoughtPieces ps),
            thinkingTokens := none } := by
  refine ⟨?_, ?_, ?_⟩
  · rw [extractImageResponse_char]; rfl
  · rw [extractCodeExecutionResponse_char]; rfl
  · rw [extractThinkingResponse_char]; rfl

/-- Claim C4 (counterexample): a file stuck in PROCESSING for the whole maximum
wait yields a failure, but the failure is the Unclassified template
`Gemini API error: File processing timed out`, not the Timeout category. -/
theorem claim_upload_poll_counterexample :
    (uploadAndQuery
        { uploadName := some "files/abc", uploadState := "PROCESSING",
          pollState := fun _ => "PROCESSING" }).result
        = .fail "Gemini API error: File processing timed out"
      ∧ classifyFirstMatch (thrownError "File processing timed out")
        = FailureCategory.Unclassified
      ∧ categoryMessage FailureCategory.Timeout (thrownError "File processing timed out")
        = "Gemini API request timed out. Please try again." := by
  refine ⟨?_, ?_, ?_⟩ <;> rfl

/-- Claim C4 (amended): the upload poll runs every 2000 ms up to 60000 ms; the
status sequence [PROCESSING, PROCESSING, ACTIVE] succeeds after exactly 2 poll
intervals and issues the query; a status still PROCESSING when the maximum wait
elapses fails with the Unclassified message
`Gemini API error: File processing timed out` after 30 polls (60000 ms), and
the query call is never issued. -/
theorem claim_upload_poll_amended :
    maxWait = 60000 ∧ pollInterval = 2000
      ∧ uploadAndQuery
          { uploadName := some "files/abc", uploadState := "PROCESSING",
            pollState := fun n => if n == 0 then "PROCESSING" else "ACTIVE",
            queryResponseText := some "the summary" }
        = { result := .ok "the summary" "files/abc", polls := 2,
            waitedMs := 2 * pollInterval, queriedUpstream := true }
      ∧ uploadAndQuery
          { uploadName := some "files/abc", uploadState := "PROCESSING",
            pollState := fun _ => "PROCESSING" }
        = { result := .fail "Gemini API error: File processing timed out",
            polls := maxWait / pollInterval, waitedMs := maxWait,
            queriedUpstream := false } := by
  refine ⟨rfl, rfl, ?_, ?_⟩ <;> rfl

/-- Claim C5 (counterexample): a maps request supplying latitude but no
longitude passes the input validation and reaches the network call (with no
location directive attached) instead of being rejected. -/
theorem claim_maps_validation_counterexample :
    ∃ i : MapsToolInput,
      i.latitude.isSome = true ∧ i.longitude = none
        ∧ googleMapsHandler i = some { usesGoogleMapsTool := true, latLng := none } := by
  exact ⟨{ query := "coffee", latitude := some 10 }, by decide⟩

/-- Claim C5 (amended): the handler validates each coordinate independently
(latitude in [-90,90], longitude in [-180,180], either may be absent); a request
with only one coordinate is accepted and proceeds to the network call with the
lone coordinate silently dropped; the location directive is attached exactly
when both coordinates are present. -/
theorem claim_maps_validation_amended (i : MapsToolInput) (cfg : MapsRequestConfig)
    (h : googleMapsHandler i = some cfg) :
    cfg.usesGoogleMapsTool = true
      ∧ (cfg.latLng.isSome ↔ i.latitude.isSome ∧ i.longitude.isSome)
      ∧ (∀ a, i.latitude = some a → -90 ≤ a ∧ a ≤ 90)
      ∧ (∀ b, i.longitude = some b → -180 ≤ b ∧ b ≤ 180)
      ∧ (∀ a b, i.latitude = some a → i.longitude = some b → cfg.latLng = some (a, b)) := by
  unfold googleMapsHandler at h
  split at h
  · rename_i hacc
    unfold mapsInputAccepted at hacc
    rw [Bool.and_eq_true, Bool.and_eq_true] at hacc
    obtain ⟨⟨hq, hlat⟩, hlon⟩ := hacc
    injection h with h2
    subst h2
    refine ⟨rfl, ?_, ?_, ?_, ?_⟩
    · unfold searchMapsConfig
      cases i.latitude <;> cases i.longitude <;> simp
    · intro a ha
      rw [ha] at hlat
      simpa [Bool.and_eq_true, decide_eq_true_eq] using hlat
    · intro b hb
      rw [hb] at hlon
      simpa [Bool.and_eq_true, decide_eq_true_eq] using hlon
    · intro a b ha hb
      unfold searchMapsConfig
      rw [ha, hb]
  · exact Option.noConfusion h

/-- Witness for the amended C5 theorem at a concrete accepted input. -/
theorem claim_maps_validation_amended_witness :
    googleMapsHandler { query := "coffee", latitude := some 10, longitude := some 20 }
        = some { usesGoogleMapsTool := true, latLng := some (10, 20) }
      ∧ (({ usesGoogleMapsTool := true, latLng := some ((10 : ℚ), (20 : ℚ)) }
            : MapsRequestConfig).latLng.isSome
          ↔ (some (10 : ℚ)).isSome ∧ (some (20 : ℚ)).isSome) := by
  constructor
  · decide
  · exact (claim_maps_validation_amended
      { query := "coffee", latitude := some 10, longitude := some 20 }
      { usesGoogleMapsTool := true, latLng := some (10, 20) } (by decide)).2.1

/-- Claim C6: the thinking control is selected solely from the model identifier:
Gemini-3 family models always get the intensity level (defaulting to HIGH,
upper-cased) and never a budget, all other models always get the numeric budget
(defaulting to 8192) and never a level, whatever the caller passed; and every
member of the Gemini-3 model list is recognized as Gemini 3. -/
theorem claim_thinking_control_selection :
    (∀ (model : String) (budget : Option Nat) (level : Option String),
      (mkThinkingConfig model budget level).thinkingLevel
          = (if isGemini3 model then some ((jsOr level "HIGH").toUpper) else none)
        ∧ (mkThinkingConfig model budget level).thinkingBudget
          = (if isGemini3 model then none else some (budget.getD 8192))
        ∧ (mkThinkingConfig model budget level).includeThoughts = true)
      ∧ GEMINI_3_MODELS.all (fun m => isGemini3 m) = true := by
  constructor
  · intro model budget level
    by_cases h : isGemini3 model = true <;>
      simp [mkThinkingConfig, h]
  · decide

/-- Claim C7 (counterexample): with one reference image supplied the request
part list is [text prompt, inline image] — the text prompt precedes the
reference media, not the other way round. -/
theorem claim_reference_image_order_counterexample :
    ∃ (prompt : String) (ref : RefImage),
      buildGeminiContents prompt (some [ref])
          = GContents.parts [GPart.text prompt, GPart.inlineImage ref.data ref.mimeType]
        ∧ buildGeminiContents prompt (some [ref])
          ≠ GContents.parts [GPart.inlineImage ref.data ref.mimeType, GPart.text prompt] := by
  exact ⟨"draw", ⟨"DATA", "image/png"⟩, rfl, by decide⟩

/-- Claim C7 (amended): whenever reference media are supplied, the request
content is an ordered part list in which the text prompt part comes first,
followed by the inline-encoded reference media parts in their given order. -/
theorem claim_reference_image_order_amended (prompt : String)
    (refs : Option (List RefImage)) (h : refsTruthy refs = true) :
    buildGeminiContents prompt refs
      = GContents.parts
          (GPart.text prompt ::
            (refs.getD []).map fun ref => GPart.inlineImage ref.data ref.mimeType) := by
  simp [buildGeminiContents, h]

/-- Witness for the amended C7 theorem at one reference image. -/
theorem claim_reference_image_order_amended_witness :
    refsTruthy (some [⟨"DATA", "image/png"⟩]) = true
      ∧ buildGeminiContents "draw" (some [⟨"DATA", "image/png"⟩])
        = GContents.parts [GPart.text "draw", GPart.inlineImage "DATA" "image/png"] :=
  ⟨rfl, claim_reference_image_order_amended "draw" (some [⟨"DATA", "image/png"⟩]) rfl⟩

/-- Claim C8 (counterexample): the file-upload request of `uploadAndQuery` is
issued without any deadline race, so not every outbound operation is raced. -/
theorem claim_all_ops_raced_counterexample :
    ∃ o : Outbound, o ∈ uploadAndQueryOps 60000 2 ∧ o.deadlineMs = none := by
  exact ⟨⟨.fileUpload, none⟩, by decide, rfl⟩

/-- Claim C8 (amended): every generation call of every adapter method is raced
against a deadline scoped to that call, but in `uploadAndQuery` only the final
generation call is raced — the upload request and every status poll are issued
bare, so that sequence is not bounded by a deadline. -/
theorem claim_all_ops_raced_amended (t polls : Nat) :
    allRaced (generateOps t) = true
      ∧ allRaced (editImageOps t) = true
      ∧ allRaced (searchWebOps t) = true
      ∧ allRaced (generateWithThinkingOps t) = true
      ∧ allRaced (executeCodeOps t) = true
      ∧ allRaced (fetchUrlOps t) = true
      ∧ allRaced (analyzeImageOps t) = true
      ∧ allRaced (searchMapsOps t) = true
      ∧ allRaced (generateWithGeminiOps t true) = true
      ∧ allRaced (generateWithGeminiOps t false) = true
      ∧ allRaced (generateWithImagenOps t) = true
      ∧ ((uploadAndQueryOps t polls).all fun o =>
          o.deadlineMs.isSome == (o.kind == OpKind.generateContent)) = true
      ∧ allRaced (uploadAndQueryOps t polls) = false := by
  refine ⟨rfl, rfl, rfl, rfl, rfl, rfl, rfl, rfl, rfl, rfl, rfl, ?_, ?_⟩
  · have hrep : ∀ n, ((List.replicate n (⟨OpKind.fileGet, none⟩ : Outbound)).all
        fun o => o.deadlineMs.isSome == (o.kind == OpKind.generateContent)) = true := by
      intro n
      induction n with
      | zero => rfl
      | succ n ih => simp [List.replicate_succ, ih]
    simp [uploadAndQueryOps, List.all_append, hrep polls]
  · simp [allRaced, uploadAndQueryOps]

/-- Claim C9: an upstream response with no candidates (and no aggregated text or
usage metadata), and likewise a candidate with no content, grounding metadata or
URL metadata, normalize in every capability to the empty-but-well-typed result:
empty strings and empty lists, never a failure. -/
theorem claim_empty_response_wellTyped :
    (∀ r : Response, r.candidates = none → r.text = none → r.usageMetadata = none →
      extractSearchResponse r = { text := "", citations := [], searchQueries := [] }
        ∧ extractImageResponse r = { text := none, thinking := none, images := [] }
        ∧ extractThinkingResponse r = { text := "", thinking := "", thinkingTokens := none }
        ∧ extractCodeExecutionResponse r = { text := "", code := "", output := "" }
        ∧ extractUrlContextResponse r = { text := "", urlMetadata := [] }
        ∧ extractMapsResponse r = { text := "", places := [], searchQueries := [] })
      ∧ (∀ c : Candidate, c.content = none → c.groundingMetadata = none →
          c.urlContextMetadata = none →
          extractSearchResponse { candidates := some [c] }
              = { text := "", citations := [], searchQueries := [] }
            ∧ extractMapsResponse { candidates := some [c] }
              = { text := "", places := [], searchQueries := [] }
            ∧ extractUrlContextResponse { candidates := some [c] }
              = { text := "", urlMetadata := [] }
            ∧ extractThinkingResponse { candidates := some [c] }
              = { text := "", thinking := "", thinkingTokens := none }
            ∧ extractImageResponse { candidates := some [c] }
              = { text := none, thinking := none, images := [] }
            ∧ extractCodeExecutionResponse { candidates := some [c] }
              = { text := "", code := "", output := "" }) := by
  constructor
  · intro r h1 h2 h3
    have hr : r = { candidates := none, text := none, usageMetadata := none } := by
      cases r; simp_all
    subst hr
    exact ⟨rfl, rfl, rfl, rfl, rfl, rfl⟩
  · intro c h1 h2 h3
    have hc :
        c = { content := none, groundingMetadata := none, urlContextMetadata := none } := by
      cases c; simp_all
    subst hc
    exact ⟨rfl, rfl, rfl, rfl, rfl, rfl⟩

/-- Witness for C9 at the empty response and the empty candidate. -/
theorem claim_empty_response_wellTyped_witness :
    extractSearchResponse { candidates := none }
        = { text := "", citations := [], searchQueries := [] }
      ∧ extractMapsResponse { candidates := some [{}] }
        = { text := "", places := [], searchQueries := [] } :=
  ⟨(claim_empty_response_wellTyped.1 { candidates := none } rfl rfl rfl).1,
   (claim_empty_response_wellTyped.2 {} rfl rfl rfl).2.1⟩

/-- Claim C10: a fragment whose thought flag is set but whose text payload is
absent or empty contributes to neither the thinking field nor the answer-text
field of the thinking and image normalizers — inserting it anywhere in the
fragment list leaves those fields unchanged. -/
theorem claim_empty_thought_fragment_dropped (l1 l2 : List Part) (p : Part)
    (hth : p.thought = true) (htx : truthy p.text = false) :
    extractThinkingResponse (mkPartsResponse (l1 ++ p :: l2))
        = extractThinkingResponse (mkPartsResponse (l1 ++ l2))
      ∧ (extractImageResponse (mkPartsResponse (l1 ++ p :: l2))).text
        = (extractImageResponse (mkPartsResponse (l1 ++ l2))).text
      ∧ (extractImageResponse (mkPartsResponse (l1 ++ p :: l2))).thinking
        = (extractImageResponse (mkPartsResponse (l1 ++ l2))).thinking := by
  obtain ⟨hT, hA⟩ := pieces_drop p hth htx l1 l2
  refine ⟨?_, ?_, ?_⟩
  · rw [extractThinkingResponse_char, extractThinkingResponse_char,
      candParts_mk, candParts_mk]
    simp [hT, hA, mkPartsResponse]
  · rw [extractImageResponse_char, extractImageResponse_char,
      candParts_mk, candParts_mk]
    simp [hA]
  · rw [extractImageResponse_char, extractImageResponse_char,
      candParts_mk, candParts_mk]
    simp [hT]

/-- Witness for C10 at a thought-flagged fragment with absent text. -/
theorem claim_empty_thought_fragment_dropped_witness :
    ({ thought := true } : Part).thought = true
      ∧ truthy ({ thought := true } : Part).text = false
      ∧ extractThinkingResponse
          (mkPartsResponse ([] ++ ({ thought := true } : Part) :: []))
        = extractThinkingResponse (mkPartsResponse ([] ++ [])) :=
  ⟨rfl, rfl, (claim_empty_thought_fragment_dropped [] [] { thought := true } rfl rfl).1⟩

end GeminiMCP
